import Mathlib

/-!
Shallow embedding of `src/curvatureSliders.py` (class `CurvatureSliders`):
a meshcat slider UI that converts two constant-curvature coordinates
(q1, q2) into an augmented-rigid-body configuration and drives a drake
plant in a polling loop.

Real-valued program quantities (slider values, curvatures, positions,
times) are modelled by `ℝ`; python lists / numpy vectors by `List ℝ`;
fallible operations (tuple indexing, numpy elementwise operations on
mismatched lengths) by `Option`.
-/

namespace CurvatureSliders

/-- Default values for the meshcat sliders (dataclass `SliderDefault`). -/
structure SliderDefault where
  name : String
  default : ℝ

/-- `_Q1 = SliderDefault("q1", 0.0)`. -/
def _Q1 : SliderDefault := ⟨"q1", 0.0⟩

/-- `_Q2 = SliderDefault("q2", 0.0)`. -/
def _Q2 : SliderDefault := ⟨"q2", 0.0⟩

/-- One meshcat slider registration, as passed to `meshcat.AddSlider`. -/
structure Slider where
  name : String
  min : ℝ
  max : ℝ
  step : ℝ
  value : ℝ

/-- The sliders registered by `__init__`, in registration order. -/
noncomputable def initSliders : List Slider :=
  [ ⟨_Q1.name, -2.0 * Real.pi, 2.0 * Real.pi, 0.1, _Q1.default⟩,
    ⟨_Q2.name, -2.0 * Real.pi, 2.0 * Real.pi, 0.1, _Q2.default⟩ ]

/-- The vector output port declared by `__init__` via
`DeclareVectorOutputPort("q1_q2", 2, self.DoCalcOutput)`. -/
structure VectorOutputPort where
  name : String
  size : ℕ

/-- The declared output port. -/
def q1_q2_port : VectorOutputPort := ⟨"q1_q2", 2⟩

/-- `DoCalcOutput`: reads the two slider values from meshcat
(`GetSliderValue`) and writes them at indices 0 and 1 of the output
vector.  The meshcat slider store is modelled as a map from slider
name to current value. -/
def DoCalcOutput (getSliderValue : String → ℝ) : List ℝ :=
  [getSliderValue _Q1.name, getSliderValue _Q2.name]

/-- `CC2AGRB`: converts a constant-curvature configuration `(q1, q2)`
into the augmented-rigid-body configuration.  The python code indexes
`q[0]` and `q[1]` of its tuple argument, which raises when the tuple
has fewer than two elements: this is the `none` case.  Trailing
elements are ignored, as in python. -/
noncomputable def CC2AGRB (L : ℝ) (q : List ℝ) : Option (List ℝ) :=
  match q with
  | q1 :: q2 :: _ =>
    let config1 : List ℝ := [0, 0.5 * L, 0.5 * L, 0]
    let config2 : List ℝ := [0, 0.5 * L, 0.5 * L, 0]
    let config1 : List ℝ :=
      if q1 ≠ 0 then
        [0.5 * q1, L * Real.sin (0.5 * q1) / q1,
         L * Real.sin (0.5 * q1) / q1, 0.5 * q1]
      else config1
    let config2 : List ℝ :=
      if q2 ≠ 0 then
        [0.5 * q2, L * Real.sin (0.5 * q2) / q2,
         L * Real.sin (0.5 * q2) / q2, 0.5 * q2]
      else config2
    some (config1 ++ config2)
  | _ => none

/-- Real division instrumented to fail on a zero divisor; used to show
the divisions in `CC2AGRB` are only reached with a nonzero divisor. -/
noncomputable def checkedDiv (a b : ℝ) : Option ℝ :=
  if b = 0 then none else some (a / b)

/-- `CC2AGRB` with every division routed through `checkedDiv`,
otherwise identical to `CC2AGRB`. -/
noncomputable def CC2AGRBchecked (L : ℝ) (q : List ℝ) : Option (List ℝ) :=
  match q with
  | q1 :: q2 :: _ => do
    let config1 : List ℝ := [0, 0.5 * L, 0.5 * L, 0]
    let config2 : List ℝ := [0, 0.5 * L, 0.5 * L, 0]
    let config1 : List ℝ ←
      if q1 ≠ 0 then do
        let d ← checkedDiv (L * Real.sin (0.5 * q1)) q1
        pure [0.5 * q1, d, d, 0.5 * q1]
      else pure config1
    let config2 : List ℝ ←
      if q2 ≠ 0 then do
        let d ← checkedDiv (L * Real.sin (0.5 * q2)) q2
        pure [0.5 * q2, d, d, 0.5 * q2]
      else pure config2
    pure (config1 ++ config2)
  | _ => none

/-- The configuration block `CC2AGRB` computes for one segment of
curvature `q`, as described by the specification. -/
noncomputable def segmentBlockSpec (L q : ℝ) : List ℝ :=
  if q = 0 then [0, 0.5 * L, 0.5 * L, 0]
  else
    [0.5 * q, L * Real.sin (0.5 * q) / q,
     L * Real.sin (0.5 * q) / q, 0.5 * q]

lemma segmentBlockSpec_length (L q : ℝ) : (segmentBlockSpec L q).length = 4 := by
  unfold segmentBlockSpec
  split <;> rfl

lemma take4_append (a b : List ℝ) (ha : a.length = 4) : (a ++ b).take 4 = a := by
  rw [← ha, List.take_left]

lemma drop4_append (a b : List ℝ) (ha : a.length = 4) : (a ++ b).drop 4 = b := by
  rw [← ha, List.drop_left]

lemma CC2AGRB_cons (L q1 q2 : ℝ) (rest : List ℝ) :
    CC2AGRB L (q1 :: q2 :: rest) =
      some (segmentBlockSpec L q1 ++ segmentBlockSpec L q2) := by
  unfold CC2AGRB segmentBlockSpec
  by_cases h1 : q1 = 0 <;> by_cases h2 : q2 = 0 <;> simp [h1, h2]

lemma CC2AGRB_some_length (L : ℝ) (q r : List ℝ)
    (h : CC2AGRB L q = some r) : r.length = 8 := by
  match q with
  | [] => simp [CC2AGRB] at h
  | [_] => simp [CC2AGRB] at h
  | q1 :: q2 :: rest =>
    rw [CC2AGRB_cons] at h
    cases h
    simp [segmentBlockSpec_length]

/-- **C1.** For every pair `(q1, q2)` and rest length `L`, `CC2AGRB`
returns an 8-element list that is the concatenation of two 4-element
segment blocks: for curvature `q ≠ 0` the block is
`[0.5*q, L*sin(0.5*q)/q, L*sin(0.5*q)/q, 0.5*q]`, and for `q = 0` the
degenerate straight-segment block `[0, 0.5*L, 0.5*L, 0]`. -/
theorem CC2AGRB_formula (L q1 q2 : ℝ) :
    ∃ r : List ℝ, CC2AGRB L [q1, q2] = some r ∧
      r = segmentBlockSpec L q1 ++ segmentBlockSpec L q2 ∧
      (segmentBlockSpec L q1).length = 4 ∧
      (segmentBlockSpec L q2).length = 4 ∧
      r.length = 8 := by
  refine ⟨segmentBlockSpec L q1 ++ segmentBlockSpec L q2,
    CC2AGRB_cons L q1 q2 [], rfl, segmentBlockSpec_length L q1,
    segmentBlockSpec_length L q2, ?_⟩
  simp [segmentBlockSpec_length]

/-- **C4.** `CC2AGRB` is total and never divides by zero: on every
input list with at least two elements, the division-checked variant
succeeds and agrees with `CC2AGRB`. -/
theorem CC2AGRB_total (L : ℝ) (q : List ℝ) (h : 2 ≤ q.length) :
    ∃ r : List ℝ, CC2AGRBchecked L q = some r ∧ CC2AGRB L q = some r := by
  match q with
  | [] => simp at h
  | [_] => simp at h
  | q1 :: q2 :: rest =>
    refine ⟨(segmentBlockSpec L q1 ++ segmentBlockSpec L q2), ?_,
      CC2AGRB_cons L q1 q2 rest⟩
    unfold CC2AGRBchecked segmentBlockSpec checkedDiv
    by_cases h1 : q1 = 0 <;> by_cases h2 : q2 = 0 <;> simp [h1, h2]

/-- Witness for C4 at the concrete input `L = 0.2`, `q = [1, 2]`. -/
theorem CC2AGRB_total_witness :
    ∃ r : List ℝ, CC2AGRBchecked 0.2 [1, 2] = some r ∧
      CC2AGRB 0.2 [1, 2] = some r :=
  CC2AGRB_total 0.2 [1, 2] (by simp)

/-- **C9.** The 8-element result of `CC2AGRB` satisfies the block
symmetries `r[0] = r[3]`, `r[1] = r[2]`, `r[4] = r[7]`, `r[5] = r[6]`;
its first block depends only on `q1` (and `L`), its second block only
on `q2` (and `L`). -/
theorem CC2AGRB_block_structure (L q1 q2 : ℝ) (r : List ℝ)
    (h : CC2AGRB L [q1, q2] = some r) :
    r.length = 8 ∧
    r.getD 0 0 = r.getD 3 0 ∧ r.getD 1 0 = r.getD 2 0 ∧
    r.getD 4 0 = r.getD 7 0 ∧ r.getD 5 0 = r.getD 6 0 ∧
    (∀ y : ℝ, (CC2AGRB L [q1, y]).map (List.take 4) = some (r.take 4)) ∧
    (∀ x : ℝ, (CC2AGRB L [x, q2]).map (List.drop 4) = some (r.drop 4)) := by
  rw [CC2AGRB_cons] at h
  cases h
  have h4 : ∀ z : ℝ, (segmentBlockSpec L z).length = 4 :=
    segmentBlockSpec_length L
  refine ⟨by simp [h4], ?_, ?_, ?_, ?_, ?_, ?_⟩
  · unfold segmentBlockSpec
    split <;> simp [List.getD]
  · unfold segmentBlockSpec
    split <;> simp [List.getD]
  · rcases CC2AGRB_formula L q1 q2 with ⟨s, _, rfl, _, _, _⟩
    unfold segmentBlockSpec
    split <;> split <;> simp [List.getD]
  · rcases CC2AGRB_formula L q1 q2 with ⟨s, _, rfl, _, _, _⟩
    unfold segmentBlockSpec
    split <;> split <;> simp [List.getD]
  · intro y
    rw [CC2AGRB_cons]
    rw [show Option.map (List.take 4)
          (some (segmentBlockSpec L q1 ++ segmentBlockSpec L y)) =
        some ((segmentBlockSpec L q1 ++ segmentBlockSpec L y).take 4) from rfl]
    rw [take4_append _ _ (h4 q1), take4_append _ _ (h4 q1)]
  · intro x
    rw [CC2AGRB_cons]
    rw [show Option.map (List.drop 4)
          (some (segmentBlockSpec L x ++ segmentBlockSpec L q2)) =
        some ((segmentBlockSpec L x ++ segmentBlockSpec L q2).drop 4) from rfl]
    rw [drop4_append _ _ (h4 x), drop4_append _ _ (h4 q1)]

/-- Witness for C9 at `L = 0.2`, `q1 = 0`, `q2 = 0`. -/
theorem CC2AGRB_block_structure_witness :
    ([0, 0.1, 0.1, 0, 0, 0.1, 0.1, 0] : List ℝ).length = 8 ∧
    ([0, 0.1, 0.1, 0, 0, 0.1, 0.1, 0] : List ℝ).getD 0 0 =
      ([0, 0.1, 0.1, 0, 0, 0.1, 0.1, 0] : List ℝ).getD 3 0 ∧
    ([0, 0.1, 0.1, 0, 0, 0.1, 0.1, 0] : List ℝ).getD 1 0 =
      ([0, 0.1, 0.1, 0, 0, 0.1, 0.1, 0] : List ℝ).getD 2 0 ∧
    ([0, 0.1, 0.1, 0, 0, 0.1, 0.1, 0] : List ℝ).getD 4 0 =
      ([0, 0.1, 0.1, 0, 0, 0.1, 0.1, 0] : List ℝ).getD 7 0 ∧
    ([0, 0.1, 0.1, 0, 0, 0.1, 0.1, 0] : List ℝ).getD 5 0 =
      ([0, 0.1, 0.1, 0, 0, 0.1, 0.1, 0] : List ℝ).getD 6 0 ∧
    (∀ y : ℝ, (CC2AGRB 0.2 [0, y]).map (List.take 4) =
      some (([0, 0.1, 0.1, 0, 0, 0.1, 0.1, 0] : List ℝ).take 4)) ∧
    (∀ x : ℝ, (CC2AGRB 0.2 [x, 0]).map (List.drop 4) =
      some (([0, 0.1, 0.1, 0, 0, 0.1, 0.1, 0] : List ℝ).drop 4)) :=
  CC2AGRB_block_structure 0.2 0 0 [0, 0.1, 0.1, 0, 0, 0.1, 0.1, 0]
    (by rw [CC2AGRB_cons]; norm_num [segmentBlockSpec])

/-- The effects of one pass through the body of the `Run` polling loop
(the part after the button-click and timeout checks): the plant
positions after the pass, whether `diagram.Publish` was called, and
the duration passed to `time.sleep`, if any. -/
structure IterEffect where
  positions : List ℝ
  published : Bool
  sleep : Option ℝ

/-- numpy's `(np.abs(a - b) < c).all()` on same-length vectors. -/
noncomputable def npAllAbsLt (a b : List ℝ) (c : ℝ) : Bool :=
  (List.zipWith (fun x y => |x - y|) a b).all fun d => decide (d < c)

/-- One pass through the body of the `Run` polling loop: evaluate the
output port (`DoCalcOutput` on the current slider values), convert
with `CC2AGRB`; if every coordinate moved by less than `0.001`, sleep
`0.01` s and leave the plant untouched; otherwise set the plant
positions to the new values and publish the diagram.  `none` models a
python exception (short tuple or numpy shape mismatch). -/
noncomputable def RunLoopBody (L : ℝ) (sliderVal : String → ℝ)
    (old_positions : List ℝ) : Option IterEffect :=
  match CC2AGRB L (DoCalcOutput sliderVal) with
  | none => none
  | some new_positions =>
    if old_positions.length = new_positions.length then
      if npAllAbsLt new_positions old_positions 0.001 then
        some ⟨old_positions, false, some 0.01⟩
      else
        some ⟨new_positions, true, none⟩
    else none

lemma npAllAbsLt_eq_true_iff (a b : List ℝ) (c : ℝ) :
    npAllAbsLt a b c = true ↔
      ∀ i, i < min a.length b.length → |a.getD i 0 - b.getD i 0| < c := by
  unfold npAllAbsLt
  rw [List.all_eq_true]
  constructor
  · intro h i hi
    have hia : i < a.length := lt_of_lt_of_le hi (min_le_left _ _)
    have hib : i < b.length := lt_of_lt_of_le hi (min_le_right _ _)
    have hz : i < (List.zipWith (fun x y => |x - y|) a b).length := by
      simpa [List.length_zipWith] using hi
    have hm := h _ (List.getElem_mem hz)
    rw [List.getElem_zipWith, decide_eq_true_eq] at hm
    rwa [List.getD_eq_getElem _ _ hia, List.getD_eq_getElem _ _ hib]
  · intro h x hx
    obtain ⟨i, hi, rfl⟩ := List.mem_iff_getElem.mp hx
    have hmin : i < min a.length b.length := by
      simpa [List.length_zipWith] using hi
    have hia : i < a.length := lt_of_lt_of_le hmin (min_le_left _ _)
    have hib : i < b.length := lt_of_lt_of_le hmin (min_le_right _ _)
    rw [List.getElem_zipWith, decide_eq_true_eq]
    have := h i hmin
    rwa [List.getD_eq_getElem _ _ hia, List.getD_eq_getElem _ _ hib] at this

lemma RunLoopBody_eq_of_some (L : ℝ) (s : String → ℝ)
    (old np : List ℝ) (hnew : CC2AGRB L (DoCalcOutput s) = some np) :
    RunLoopBody L s old =
      if old.length = np.length then
        if npAllAbsLt np old 0.001 then
          some ⟨old, false, some 0.01⟩
        else
          some ⟨np, true, none⟩
      else none := by
  unfold RunLoopBody
  rw [hnew]

lemma RunLoopBody_update (L : ℝ) (s : String → ℝ) (old np : List ℝ)
    (hnew : CC2AGRB L (DoCalcOutput s) = some np)
    (hlen : old.length = np.length)
    (i : ℕ) (hi : i < np.length)
    (hfar : 0.001 ≤ |np.getD i 0 - old.getD i 0|) :
    RunLoopBody L s old = some ⟨np, true, none⟩ := by
  rw [RunLoopBody_eq_of_some L s old np hnew, if_pos hlen, if_neg]
  intro hall
  have hmin : i < min np.length old.length := by
    rw [hlen]; simpa using hi
  exact absurd ((npAllAbsLt_eq_true_iff np old 0.001).mp hall i hmin)
    (not_lt.mpr hfar)

lemma RunLoopBody_skip (L : ℝ) (s : String → ℝ) (old np : List ℝ)
    (hnew : CC2AGRB L (DoCalcOutput s) = some np)
    (hlen : old.length = np.length)
    (hclose : ∀ i, i < np.length → |np.getD i 0 - old.getD i 0| < 0.001) :
    RunLoopBody L s old = some ⟨old, false, some 0.01⟩ := by
  rw [RunLoopBody_eq_of_some L s old np hnew, if_pos hlen, if_pos]
  rw [npAllAbsLt_eq_true_iff]
  intro i hi
  exact hclose i (lt_of_lt_of_le hi (min_le_left _ _))

/-- **C2.** In every pass of `Run`'s polling loop in which the
converted positions `CC2AGRB(output-port value)` differ from the
plant's current positions by at least `0.001` in some coordinate, the
plant positions are set to exactly the new positions and the diagram
is published (and no sleep happens in that pass). -/
theorem Run_sets_and_publishes (L : ℝ) (s : String → ℝ)
    (old np : List ℝ)
    (hnew : CC2AGRB L (DoCalcOutput s) = some np)
    (hlen : old.length = np.length)
    (i : ℕ) (hi : i < np.length)
    (hfar : 0.001 ≤ |np.getD i 0 - old.getD i 0|) :
    RunLoopBody L s old = some ⟨np, true, none⟩ :=
  RunLoopBody_update L s old np hnew hlen i hi hfar

/-- Witness for C2: sliders at 0, rest length `0.2`, plant at all 2s. -/
theorem Run_sets_and_publishes_witness :
    RunLoopBody 0.2 (fun _ => 0) [2, 2, 2, 2, 2, 2, 2, 2] =
      some ⟨[0, 0.1, 0.1, 0, 0, 0.1, 0.1, 0], true, none⟩ :=
  Run_sets_and_publishes 0.2 (fun _ => 0) [2, 2, 2, 2, 2, 2, 2, 2]
    [0, 0.1, 0.1, 0, 0, 0.1, 0.1, 0]
    (by rw [show DoCalcOutput (fun _ => 0) = [0, 0] from rfl, CC2AGRB_cons]
        norm_num [segmentBlockSpec])
    (by simp) 0 (by simp) (by norm_num [List.getD])

/-- **C8.** In every pass of `Run`'s polling loop in which every
coordinate of the newly converted positions differs from the plant's
current positions by less than `0.001`, the plant positions are left
unchanged and the diagram is not published in that pass. -/
theorem Run_skips_unchanged (L : ℝ) (s : String → ℝ)
    (old np : List ℝ)
    (hnew : CC2AGRB L (DoCalcOutput s) = some np)
    (hlen : old.length = np.length)
    (hclose : ∀ i, i < np.length → |np.getD i 0 - old.getD i 0| < 0.001) :
    RunLoopBody L s old = some ⟨old, false, some 0.01⟩ :=
  RunLoopBody_skip L s old np hnew hlen hclose

/-- Witness for C8: sliders at 0, plant already at the converted
configuration, so nothing changes and the pass just sleeps. -/
theorem Run_skips_unchanged_witness :
    RunLoopBody 0.2 (fun _ => 0) [0, 0.1, 0.1, 0, 0, 0.1, 0.1, 0] =
      some ⟨[0, 0.1, 0.1, 0, 0, 0.1, 0.1, 0], false, some 0.01⟩ :=
  Run_skips_unchanged 0.2 (fun _ => 0) [0, 0.1, 0.1, 0, 0, 0.1, 0.1, 0]
    [0, 0.1, 0.1, 0, 0, 0.1, 0.1, 0]
    (by rw [show DoCalcOutput (fun _ => 0) = [0, 0] from rfl, CC2AGRB_cons]
        norm_num [segmentBlockSpec])
    rfl
    (by intro i hi
        simp only [List.length_cons, List.length_nil] at hi
        interval_cases i <;> norm_num [List.getD])

/-- Counterexample to C7 as stated: a pass of the loop that does not
exit and in which the positions moved updates the plant and publishes
but does not sleep at all. -/
theorem Run_sleep_cex :
    ∃ e : IterEffect,
      RunLoopBody 0.2 (fun _ => 0) [1, 1, 1, 1, 1, 1, 1, 1] = some e ∧
      e.published = true ∧ e.sleep = none ∧ e.sleep ≠ some 0.01 := by
  refine ⟨⟨[0, 0.1, 0.1, 0, 0, 0.1, 0.1, 0], true, none⟩, ?_, rfl, rfl, by simp⟩
  exact RunLoopBody_update 0.2 (fun _ => 0) [1, 1, 1, 1, 1, 1, 1, 1]
    [0, 0.1, 0.1, 0, 0, 0.1, 0.1, 0]
    (by rw [show DoCalcOutput (fun _ => 0) = [0, 0] from rfl, CC2AGRB_cons]
        norm_num [segmentBlockSpec])
    (by simp) 0 (by simp) (by norm_num [List.getD])

/-- **C7 (amended).** A pass of `Run`'s polling loop that does not
exit sleeps `0.01` s exactly when every coordinate of the newly
converted positions differs from the current positions by less than
`0.001`; a pass that updates the positions does not sleep. -/
theorem Run_sleep_iff (L : ℝ) (s : String → ℝ) (old np : List ℝ)
    (hnew : CC2AGRB L (DoCalcOutput s) = some np)
    (hlen : old.length = np.length) :
    ∃ e : IterEffect, RunLoopBody L s old = some e ∧
      (e.sleep = some 0.01 ↔
        ∀ i, i < np.length → |np.getD i 0 - old.getD i 0| < 0.001) ∧
      (e.sleep = none ↔
        ∃ i, i < np.length ∧ 0.001 ≤ |np.getD i 0 - old.getD i 0|) := by
  by_cases hall : ∀ i, i < np.length → |np.getD i 0 - old.getD i 0| < 0.001
  · refine ⟨⟨old, false, some 0.01⟩,
      RunLoopBody_skip L s old np hnew hlen hall, ?_, ?_⟩
    · simpa using hall
    · constructor
      · intro h
        simp at h
      · rintro ⟨i, hi, hfar⟩
        exact absurd (hall i hi) (not_lt.mpr hfar)
  · push_neg at hall
    obtain ⟨i, hi, hfar⟩ := hall
    refine ⟨⟨np, true, none⟩,
      RunLoopBody_update L s old np hnew hlen i hi hfar, ?_, ?_⟩
    · constructor
      · intro h
        simp at h
      · intro hallc
        exact absurd (hallc i hi) (not_lt.mpr hfar)
    · exact iff_of_true rfl ⟨i, hi, hfar⟩

/-- Witness for the amended C7 at a pass whose first coordinate moved
by 1: the pass does not sleep. -/
theorem Run_sleep_iff_witness :
    ∃ e : IterEffect,
      RunLoopBody 0.2 (fun _ => 0) [1, 0.1, 0.1, 0, 0, 0.1, 0.1, 0] = some e ∧
      (e.sleep = some 0.01 ↔
        ∀ i, i < List.length ([0, 0.1, 0.1, 0, 0, 0.1, 0.1, 0] : List ℝ) →
          |([0, 0.1, 0.1, 0, 0, 0.1, 0.1, 0] : List ℝ).getD i 0 -
            ([1, 0.1, 0.1, 0, 0, 0.1, 0.1, 0] : List ℝ).getD i 0| < 0.001) ∧
      (e.sleep = none ↔
        ∃ i, i < List.length ([0, 0.1, 0.1, 0, 0, 0.1, 0.1, 0] : List ℝ) ∧
          0.001 ≤ |([0, 0.1, 0.1, 0, 0, 0.1, 0.1, 0] : List ℝ).getD i 0 -
            ([1, 0.1, 0.1, 0, 0, 0.1, 0.1, 0] : List ℝ).getD i 0|) :=
  Run_sleep_iff 0.2 (fun _ => 0) [1, 0.1, 0.1, 0, 0, 0.1, 0.1, 0]
    [0, 0.1, 0.1, 0, 0, 0.1, 0.1, 0]
    (by rw [show DoCalcOutput (fun _ => 0) = [0, 0] from rfl, CC2AGRB_cons]
        norm_num [segmentBlockSpec])
    (by simp)

/-- What `Run` can observe at one poll of its loop: the click count of
the 'Stop Curvature Sliders' button (`GetButtonClicks`), the current
wall-clock reading (`time.time()`), and the slider values. -/
structure World where
  clicks : ℕ
  now : ℝ
  sliderVal : String → ℝ

/-- The condition under which `Run`'s loop stops polling at a given
observation: the stop button has been clicked at least once (the
`while` guard fails), or the elapsed time `now - t0` reached the
timeout (the `break`). -/
def RunExit (t0 timeout : ℝ) (w : World) : Prop :=
  1 ≤ w.clicks ∨ timeout ≤ w.now - t0

/-- `Run`'s polling loop, driven by the stream `w` of per-poll
observations, with explicit fuel.  Returns the index of the poll at
which the loop exited together with the plant positions at that
moment; `none` if the fuel ran out or the body raised. -/
noncomputable def RunLoop (L t0 timeout : ℝ) (w : ℕ → World) :
    ℕ → ℕ → List ℝ → Option (ℕ × List ℝ)
  | 0, _, _ => none
  | fuel + 1, i, pos =>
    if 1 ≤ (w i).clicks then some (i, pos)
    else if timeout ≤ (w i).now - t0 then some (i, pos)
    else
      match RunLoopBody L (w i).sliderVal pos with
      | some e => RunLoop L t0 timeout w fuel (i + 1) e.positions
      | none => none

lemma RunLoopBody_isSome (L : ℝ) (s : String → ℝ) (old : List ℝ)
    (h8 : old.length = 8) :
    ∃ e : IterEffect, RunLoopBody L s old = some e ∧
      e.positions.length = 8 := by
  obtain ⟨np, hnp⟩ : ∃ np, CC2AGRB L (DoCalcOutput s) = some np :=
    ⟨_, CC2AGRB_cons L (s _Q1.name) (s _Q2.name) []⟩
  have hlen8 : np.length = 8 := CC2AGRB_some_length L _ np hnp
  rw [RunLoopBody_eq_of_some L s old np hnp, if_pos (by rw [h8, hlen8])]
  by_cases hb : npAllAbsLt np old 0.001 = true
  · rw [if_pos hb]
    exact ⟨_, rfl, h8⟩
  · rw [if_neg hb]
    exact ⟨_, rfl, hlen8⟩

lemma RunLoop_first_exit (L t0 timeout : ℝ) (w : ℕ → World) :
    ∀ fuel i pos, List.length pos = 8 →
    ∀ k, k < fuel → RunExit t0 timeout (w (i + k)) →
    ∃ j q, RunLoop L t0 timeout w fuel i pos = some (j, q) ∧
      i ≤ j ∧ j ≤ i + k ∧ RunExit t0 timeout (w j) ∧
      ∀ m, i ≤ m → m < j → ¬ RunExit t0 timeout (w m) := by
  intro fuel
  induction fuel with
  | zero =>
    intro i pos _ k hk _
    exact absurd hk (Nat.not_lt_zero k)
  | succ n ih =>
    intro i pos h8 k hk hexit
    by_cases h1 : 1 ≤ (w i).clicks
    · refine ⟨i, pos, ?_, le_refl i, Nat.le_add_right i k, Or.inl h1,
        fun m him hmi => absurd hmi (by omega)⟩
      simp only [RunLoop]
      rw [if_pos h1]
    · by_cases h2 : timeout ≤ (w i).now - t0
      · refine ⟨i, pos, ?_, le_refl i, Nat.le_add_right i k, Or.inr h2,
          fun m him hmi => absurd hmi (by omega)⟩
        simp only [RunLoop]
        rw [if_neg h1, if_pos h2]
      · have hnoexit : ¬ RunExit t0 timeout (w i) := by
          intro hx
          cases hx with
          | inl a => exact h1 a
          | inr b => exact h2 b
        have hk0 : k ≠ 0 := by
          rintro rfl
          exact hnoexit (by simpa using hexit)
        obtain ⟨e, he, he8⟩ := RunLoopBody_isSome L (w i).sliderVal pos h8
        have hstep : RunLoop L t0 timeout w (n + 1) i pos =
            RunLoop L t0 timeout w n (i + 1) e.positions := by
          simp only [RunLoop]
          rw [if_neg h1, if_neg h2, he]
        have hexit2 : RunExit t0 timeout (w ((i + 1) + (k - 1))) := by
          have harith : (i + 1) + (k - 1) = i + k := by omega
          rw [harith]
          exact hexit
        obtain ⟨j, q, hrun, hij, hjk, hex, hmin⟩ :=
          ih (i + 1) e.positions he8 (k - 1) (by omega) hexit2
        refine ⟨j, q, by rw [hstep]; exact hrun, by omega, by omega, hex, ?_⟩
        intro m him hmj
        rcases Nat.eq_or_lt_of_le him with heq | hlt
        · rw [← heq]
          exact hnoexit
        · exact hmin m hlt hmj

/-- **C3.** `Run`'s polling loop exits exactly when the stop button
has been clicked at least once or the elapsed time since the loop
started is at least the timeout: if the exit condition holds at some
poll `k` (and the fuel covers it), the loop returns at the first poll
`j` where the condition holds, and at every earlier poll the condition
fails and the loop kept polling. -/
theorem Run_loop_exit (L t0 timeout : ℝ) (w : ℕ → World) (pos : List ℝ)
    (fuel k : ℕ) (h8 : List.length pos = 8) (hk : k < fuel)
    (hexit : RunExit t0 timeout (w k)) :
    ∃ j q, RunLoop L t0 timeout w fuel 0 pos = some (j, q) ∧
      j ≤ k ∧ RunExit t0 timeout (w j) ∧
      ∀ m, m < j → ¬ RunExit t0 timeout (w m) := by
  obtain ⟨j, q, hrun, _, hjk, hex, hmin⟩ :=
    RunLoop_first_exit L t0 timeout w fuel 0 pos h8 k hk
      (by simpa using hexit)
  exact ⟨j, q, hrun, by omega, hex, fun m hm => hmin m (Nat.zero_le m) hm⟩

/-- Witness for C3: the stop button is already clicked at the first
poll, so the loop exits at index 0. -/
theorem Run_loop_exit_witness :
    ∃ j q, RunLoop 0.2 0 100 (fun _ => ⟨1, 0, fun _ => 0⟩) 1 0
        [0, 0, 0, 0, 0, 0, 0, 0] = some (j, q) ∧
      j ≤ 0 ∧ RunExit 0 100 ((fun _ => (⟨1, 0, fun _ => 0⟩ : World)) j) ∧
      ∀ m, m < j → ¬ RunExit 0 100 ((fun _ => (⟨1, 0, fun _ => 0⟩ : World)) m) :=
  Run_loop_exit 0.2 0 100 (fun _ => ⟨1, 0, fun _ => 0⟩)
    [0, 0, 0, 0, 0, 0, 0, 0] 1 0 rfl (by simp) (Or.inl (le_refl 1))

/-- **C5.** The constructor registers exactly two sliders, named `q1`
and `q2`, each with minimum `-2*pi`, maximum `2*pi`, step `0.1`, and
initial value `0`. -/
theorem init_sliders_spec :
    initSliders.length = 2 ∧
    initSliders = [⟨"q1", -(2 * Real.pi), 2 * Real.pi, 0.1, 0⟩,
                   ⟨"q2", -(2 * Real.pi), 2 * Real.pi, 0.1, 0⟩] := by
  constructor
  · rfl
  · unfold initSliders _Q1 _Q2
    norm_num [Slider.mk.injEq]

/-- **C6.** The system declares a vector output port named `q1_q2` of
size 2, and `DoCalcOutput` writes the current value of slider `q1` at
index 0 and the current value of slider `q2` at index 1. -/
theorem output_port_spec :
    q1_q2_port.name = "q1_q2" ∧ q1_q2_port.size = 2 ∧
    ∀ s : String → ℝ, (DoCalcOutput s).length = q1_q2_port.size ∧
      (DoCalcOutput s).getD 0 0 = s "q1" ∧
      (DoCalcOutput s).getD 1 0 = s "q2" :=
  ⟨rfl, rfl, fun s => ⟨rfl, rfl, rfl⟩⟩

end CurvatureSliders
